import Mathlib

/-!
Shallow embedding of the University Management System core
(question1_university_system: person.py, department.py, faculty.py).

Python objects become Lean structures; mutating methods become functions
returning the updated state alongside the result; methods that print a
failure message and return False become functions returning a typed
`Except` error. Grades and GPAs (Python floats on the 0.0-4.0 scale) are
modelled as rationals; `round(x, 2)` is modelled as rounding to the nearest
multiple of 1/100 (the values appearing in the claims are not ties, so the
tie-breaking convention is immaterial). The wall-clock-derived current
semester label (`Student._get_current_semester`) is passed in explicitly as
a `nowSem : String` parameter. Python dicts are modelled as association
lists preserving insertion order, with first-match lookup.
-/

namespace UnivSys

/-- Status of an enrollment record: department.py sets `status` to the
string "Enrolled" on enrollment and "Completed" on grade assignment. -/
inductive Status where
  | Enrolled
  | Completed
deriving DecidableEq, Repr

/-- The four academic-status strings assigned by
`Student.get_academic_status` (department.py lines 253-271), modelled as an
enumeration: DeansList is the string starting with Dean, Probation is
Academic Probation, Suspension is Academic Suspension. -/
inductive AcademicStatus where
  | DeansList
  | GoodStanding
  | Probation
  | Suspension
deriving DecidableEq, Repr

/-- `Course.__init__` (department.py lines 23-31). `instructor` holds the
faculty id of the assigned Faculty entity (None at construction). -/
structure Course where
  course_code : String
  course_name : String
  credits : Nat
  prerequisites : List String
  max_enrollment : Nat
  enrolled_students : List String
  instructor : Option String
deriving DecidableEq, Repr

/-- One value of `Student._enrolled_courses`: the per-course record
`{'course': Course, 'grade': float|None, 'semester': str, 'status': str}`. -/
structure Entry where
  course : Course
  grade : Option ℚ
  semester : String
  status : Status
deriving DecidableEq, Repr

/-- One element of `Student._gpa_history`:
`{'semester': str, 'gpa': float, 'credits': int}`. -/
structure GpaRecord where
  semester : String
  gpa : ℚ
  credits : Nat
deriving DecidableEq, Repr

/-- The mutable state of a `Student` (department.py lines 61-68) that the
enrollment engine reads and writes. -/
structure Student where
  student_id : String
  enrolled_courses : List (String × Entry)
  gpa_history : List GpaRecord
  academic_status : AcademicStatus
  total_credits : Nat
deriving DecidableEq, Repr

/-- First-match lookup in an insertion-ordered association list (Python
dict indexing / `in` test on `_enrolled_courses`). -/
def lookupEntry : List (String × Entry) → String → Option Entry
  | [], _ => none
  | ci :: rest, code => if ci.1 = code then some ci.2 else lookupEntry rest code

/-- In-place update of the (first) record with the given key, modelling
Python dict item assignment. Keys are unique in reachable states, so
replacing the first match is dict assignment. -/
def setEntry : List (String × Entry) → String → Entry → List (String × Entry)
  | [], _, _ => []
  | ci :: rest, code, e => if ci.1 = code then (ci.1, e) :: rest else ci :: setEntry rest code e

/-- Deletion of the (first) record with the given key, modelling Python
`del self._enrolled_courses[course_code]`. -/
def delEntry : List (String × Entry) → String → List (String × Entry)
  | [], _ => []
  | ci :: rest, code => if ci.1 = code then rest else ci :: delEntry rest code

/-- Failure reasons printed by `Student.enroll_course`
(department.py lines 123-137). -/
inductive EnrollError where
  | AlreadyEnrolled
  | CourseFull
  | PrerequisitesUnmet
deriving DecidableEq, Repr

/-- Failure reasons of `Student.drop_course`. -/
inductive DropError where
  | NotEnrolled
deriving DecidableEq, Repr

/-- Failure reasons of `Student.add_grade`: not enrolled, or
`_validate_grade` rejecting a grade outside [0.0, 4.0]. -/
inductive GradeError where
  | NotEnrolled
  | InvalidGrade
deriving DecidableEq, Repr

/-- `Student._check_prerequisites` (department.py lines 273-283): collects
the codes of entries whose grade is non-null and at least 2.0, and checks
every prerequisite code is among them. The `if not prerequisites` early
return is absorbed by `List.all` on the empty list. -/
def check_prerequisites (s : Student) (prerequisites : List String) : Bool :=
  let completed_courses := s.enrolled_courses.filterMap fun ci =>
    match ci.2.grade with
    | some g => if 2 ≤ g then some ci.1 else none
    | none => none
  prerequisites.all fun prereq => completed_courses.contains prereq

/-- `Student.enroll_course` (department.py lines 112-154). The Python
`semester = semester or self._get_current_semester()` uses truthiness: an
omitted semester or an empty string both fall back to the computed current
semester `nowSem`. On success the shared `Course` object is mutated
(student id appended to `enrolled_students`) and the stored entry holds
that same updated course; the updated course is returned alongside. -/
def enroll_course (s : Student) (course : Course) (semester : Option String)
    (nowSem : String) : Except EnrollError Unit × Student × Course :=
  if (lookupEntry s.enrolled_courses course.course_code).isSome then
    (Except.error EnrollError.AlreadyEnrolled, s, course)
  else if course.max_enrollment ≤ course.enrolled_students.length then
    (Except.error EnrollError.CourseFull, s, course)
  else if ¬ check_prerequisites s course.prerequisites then
    (Except.error EnrollError.PrerequisitesUnmet, s, course)
  else
    let sem := match semester with
      | some t => if t = "" then nowSem else t
      | none => nowSem
    let course' := { course with enrolled_students := course.enrolled_students ++ [s.student_id] }
    let entry : Entry := { course := course', grade := none, semester := sem, status := Status.Enrolled }
    (Except.ok (),
     { s with enrolled_courses := s.enrolled_courses ++ [(course.course_code, entry)] },
     course')

/-- `Student.drop_course` (department.py lines 156-184): removes the entry
and removes the student id from the stored course's `enrolled_students` if
present; returns the updated course on success. -/
def drop_course (s : Student) (course_code : String) :
    Except DropError Unit × Student × Option Course :=
  match lookupEntry s.enrolled_courses course_code with
  | none => (Except.error DropError.NotEnrolled, s, none)
  | some entry =>
    let course' := { entry.course with
      enrolled_students := entry.course.enrolled_students.erase s.student_id }
    (Except.ok (),
     { s with enrolled_courses := delEntry s.enrolled_courses course_code },
     some course')

/-- `Student.add_grade` (department.py lines 186-215): requires enrollment,
validates the grade into [0.0, 4.0], stores it, marks the entry Completed,
and adds the stored course's credits to `total_credits` (re-adding on every
successful call, even for an already graded course). -/
def add_grade (s : Student) (course_code : String) (grade : ℚ) :
    Except GradeError Unit × Student :=
  match lookupEntry s.enrolled_courses course_code with
  | none => (Except.error GradeError.NotEnrolled, s)
  | some entry =>
    if 0 ≤ grade ∧ grade ≤ 4 then
      let entry' := { entry with grade := some grade, status := Status.Completed }
      (Except.ok (),
       { s with enrolled_courses := setEntry s.enrolled_courses course_code entry',
                total_credits := s.total_credits + entry.course.credits })
    else
      (Except.error GradeError.InvalidGrade, s)

/-- Python `round(x, 2)` modelled on rationals: nearest multiple of 1/100. -/
def round2 (q : ℚ) : ℚ := (round (q * 100) : ℤ) / 100

/-- Whether a semester filter value passes Python's truthiness test
`if semester` in `calculate_gpa`: only a present, non-empty string does. -/
def semFilterActive (semester : Option String) : Bool :=
  match semester with
  | some t => t ≠ ""
  | none => false

/-- One iteration of the accumulation loop of `Student.calculate_gpa`
(department.py lines 230-240): the entry is skipped when an active semester
filter does not match, and only entries with a non-null grade contribute
grade times credits to the points and credits to the credit total. -/
def gpaStep (semester : Option String) (acc : ℚ × Nat) (ci : String × Entry) : ℚ × Nat :=
  if semFilterActive semester ∧ some ci.2.semester ≠ semester then acc
  else
    match ci.2.grade with
    | some g => (acc.1 + g * ci.2.course.credits, acc.2 + ci.2.course.credits)
    | none => acc

/-- The grade-point and credit accumulation loop of `Student.calculate_gpa`
(department.py lines 227-240), starting from (0.0, 0). -/
def gpa_sums (s : Student) (semester : Option String) : ℚ × Nat :=
  s.enrolled_courses.foldl (gpaStep semester) (0, 0)

/-- `Student._update_gpa_history` (department.py lines 296-312): replace
the first record whose semester equals the current label, else append. -/
def upsertHistory (l : List GpaRecord) (sem : String) (gpa : ℚ) (credits : Nat) :
    List GpaRecord :=
  match l with
  | [] => [⟨sem, gpa, credits⟩]
  | r :: rest =>
    if r.semester = sem then ⟨sem, gpa, credits⟩ :: rest
    else r :: upsertHistory rest sem gpa credits

/-- `Student.calculate_gpa` (department.py lines 217-251): returns 0.0 when
no credits qualify (without touching `gpa_history`); otherwise rounds the
credit-weighted average to 2 decimals and, exactly when the semester
argument is None, upserts `gpa_history` under the current semester label. -/
def calculate_gpa (s : Student) (semester : Option String) (nowSem : String) :
    ℚ × Student :=
  let sums := gpa_sums s semester
  if sums.2 = 0 then (0, s)
  else
    let gpa := round2 (sums.1 / sums.2)
    if semester.isNone then
      (gpa, { s with gpa_history := upsertHistory s.gpa_history nowSem gpa sums.2 })
    else (gpa, s)

/-- `Student.get_academic_status` (department.py lines 253-271): recomputes
the overall GPA (with its history side effect), classifies it by the fixed
thresholds, and overwrites the stored `academic_status`. -/
def get_academic_status (s : Student) (nowSem : String) : AcademicStatus × Student :=
  let r := calculate_gpa s none nowSem
  let status :=
    if (7 : ℚ)/2 ≤ r.1 then AcademicStatus.DeansList
    else if 2 ≤ r.1 then AcademicStatus.GoodStanding
    else if 1 ≤ r.1 then AcademicStatus.Probation
    else AcademicStatus.Suspension
  (status, { r.2 with academic_status := status })

/-- Whether `pat` occurs at the head of `text` (helper for the Python
substring test `'Research' in course_name`). -/
def matchesAt : List Char → List Char → Bool
  | [], _ => true
  | _ :: _, [] => false
  | p :: ps, c :: cs => p == c && matchesAt ps cs

/-- Substring scan: `pat` occurs somewhere in `text`. -/
def subScan (pat : List Char) : List Char → Bool
  | [] => matchesAt pat []
  | c :: cs => matchesAt pat (c :: cs) || subScan pat cs

/-- Python's `pat in s` substring containment on strings. -/
def hasSubstr (s pat : String) : Bool := subScan pat.toList s.toList

/-- `UndergraduateStudent._graduation_requirements` (department.py lines
367-371); the `major_credits` field is never read by `can_graduate`. -/
structure UgRequirements where
  min_credits : Nat
  min_gpa : ℚ

/-- The fixed undergraduate threshold table {min_credits: 120, min_gpa: 2.0}. -/
def ug_requirements : UgRequirements := ⟨120, 2⟩

/-- `UndergraduateStudent.can_graduate` (department.py lines 396-401). -/
def ug_can_graduate (s : Student) (nowSem : String) : Bool :=
  decide (ug_requirements.min_credits ≤ s.total_credits) &&
  decide (ug_requirements.min_gpa ≤ (calculate_gpa s none nowSem).1)

/-- `GraduateStudent._graduation_requirements` (department.py lines
429-441). -/
structure GradRequirements where
  min_credits : Nat
  min_gpa : ℚ
  research_credits : Nat

/-- The degree-dependent graduate threshold table: {72, 3.0, 24} when
`degree_type == "PhD"`, else the Masters table {36, 3.0, 6}. -/
def grad_requirements (degree_type : String) : GradRequirements :=
  if degree_type = "PhD" then ⟨72, 3, 24⟩ else ⟨36, 3, 6⟩

/-- The coursework bucket of `GraduateStudent.calculate_workload`
(department.py lines 458-476): credits of all enrollment entries whose
course name does not contain "Research". -/
def grad_coursework_credits (s : Student) : Nat :=
  (s.enrolled_courses.filter fun ci =>
    ! hasSubstr ci.2.course.course_name "Research").foldl
    (fun a ci => a + ci.2.course.credits) 0

/-- The research bucket of `GraduateStudent.calculate_workload`: credits of
all enrollment entries whose course name contains "Research" (regardless of
grade or status). -/
def grad_research_credits (s : Student) : Nat :=
  (s.enrolled_courses.filter fun ci =>
    hasSubstr ci.2.course.course_name "Research").foldl
    (fun a ci => a + ci.2.course.credits) 0

/-- `GraduateStudent.can_graduate` (department.py lines 478-485). -/
def grad_can_graduate (degree_type : String) (s : Student) (nowSem : String) : Bool :=
  let req := grad_requirements degree_type
  decide (req.min_credits ≤ s.total_credits) &&
  decide (req.min_gpa ≤ (calculate_gpa s none nowSem).1) &&
  decide (req.research_credits ≤ grad_research_credits s)

/-- One element of `SecureStudentRecord._access_log` (department.py lines
611-618); the wall-clock timestamp carries no logic and is omitted. -/
structure LogEntry where
  requester_id : String
  action : String
  student_id : String
deriving DecidableEq, Repr

/-- `SecureStudentRecord` state (department.py lines 511-524). -/
structure SecureStudentRecord where
  student : Student
  access_log : List LogEntry
  locked : Bool
  max_enrollment_limit : Nat
deriving DecidableEq, Repr

/-- `SecureStudentRecord.__init__`: empty log, unlocked, limit 20. -/
def mkSecureRecord (s : Student) : SecureStudentRecord := ⟨s, [], false, 20⟩

/-- `SecureStudentRecord._log_access`: appends one entry tagged with the
wrapped student's id. -/
def log_access (r : SecureStudentRecord) (requester_id action : String) :
    SecureStudentRecord :=
  { r with access_log := r.access_log ++ [⟨requester_id, action, r.student.student_id⟩] }

/-- The `PermissionError("Student record is locked")` raised by
`get_student_info`. -/
inductive SecError where
  | Locked
deriving DecidableEq, Repr

/-- `SecureStudentRecord.get_student_info` (department.py lines 526-540):
raises Locked while the record is locked (note: before any logging),
otherwise logs and returns the wrapped student's basic-info snapshot
(represented here by its student id). -/
def get_student_info (r : SecureStudentRecord) (requester_id : String) :
    Except SecError String × SecureStudentRecord :=
  if r.locked then (Except.error SecError.Locked, r)
  else (Except.ok r.student.student_id, log_access r requester_id "info_access")

/-- `SecureStudentRecord.enroll_course_secure` (department.py lines
542-574): fails (logging the failure) when the count of currently Enrolled
entries reaches the 20-course limit, or when the academic status computes
to Suspension (the status recomputation's side effects on the student
persist); otherwise logs the enrollment action and delegates to
`Student.enroll_course`, returning its outcome as a Bool. -/
def enroll_course_secure (r : SecureStudentRecord) (course : Course)
    (requester_id : String) (semester : Option String) (nowSem : String) :
    Bool × SecureStudentRecord × Course :=
  let current_courses := (r.student.enrolled_courses.filter fun ci =>
    decide (ci.2.status = Status.Enrolled)).length
  if r.max_enrollment_limit ≤ current_courses then
    (false, log_access r requester_id "enrollment_failed_Cannot exceed 20 courses", course)
  else
    let st := get_academic_status r.student nowSem
    let r1 := { r with student := st.2 }
    if st.1 = AcademicStatus.Suspension then
      (false, log_access r1 requester_id "enrollment_failed_Cannot enroll while on academic suspension", course)
    else
      let r2 := log_access r1 requester_id ("course_enrollment_" ++ course.course_code)
      let e := enroll_course r2.student course semester nowSem
      (e.1.toOption.isSome, { r2 with student := e.2.1 }, e.2.2)

/-- `SecureStudentRecord.update_gpa_secure` (department.py lines 576-599):
re-validates the grade range independently (logging a failure outside
[0.0, 4.0]), otherwise logs the update action and delegates to
`Student.add_grade`, whose Bool outcome is returned. -/
def update_gpa_secure (r : SecureStudentRecord) (course_code : String)
    (grade : ℚ) (requester_id : String) : Bool × SecureStudentRecord :=
  if grade < 0 ∨ 4 < grade then
    (false, log_access r requester_id "grade_update_failed_range")
  else
    let r1 := log_access r requester_id ("grade_update_" ++ course_code)
    let a := add_grade r1.student course_code grade
    (a.1.toOption.isSome, { r1 with student := a.2 })

/-- `SecureStudentRecord.lock_record`: set the gate, then log. -/
def lock_record (r : SecureStudentRecord) (requester_id : String) :
    SecureStudentRecord :=
  log_access { r with locked := true } requester_id "record_locked"

/-- `SecureStudentRecord.unlock_record`: clear the gate, then log. -/
def unlock_record (r : SecureStudentRecord) (requester_id : String) :
    SecureStudentRecord :=
  log_access { r with locked := false } requester_id "record_unlocked"

/-- The teaching-assignment state of faculty.py: each faculty entity's
`courses_taught` (as the ordered list of its course codes) together with
the `instructor` field of every `Course` object (course code mapped to the
assigned faculty id, None when unassigned). A key absent from either
association list stands for a faculty with an empty teaching list or a
course with a None instructor. -/
structure TeachWorld where
  facs : List (String × List String)
  instr : List (String × Option String)
deriving DecidableEq, Repr

/-- The `courses_taught` code list of the given faculty entity. -/
def taughtOf (w : TeachWorld) (fid : String) : List String :=
  match w.facs.find? (fun p => p.1 == fid) with
  | some p => p.2
  | none => []

/-- The `instructor` field of the course with the given code. -/
def instrOf (w : TeachWorld) (code : String) : Option String :=
  match w.instr.find? (fun p => p.1 == code) with
  | some p => p.2
  | none => none

/-- Replace the first record with the given key, or append a fresh one. -/
def setTaught : List (String × List String) → String → List String →
    List (String × List String)
  | [], fid, v => [(fid, v)]
  | p :: rest, fid, v =>
    if p.1 = fid then (fid, v) :: rest else p :: setTaught rest fid v

/-- Replace the first record with the given key, or append a fresh one. -/
def setInstr : List (String × Option String) → String → Option String →
    List (String × Option String)
  | [], code, v => [(code, v)]
  | p :: rest, code, v =>
    if p.1 = code then (code, v) :: rest else p :: setInstr rest code v

/-- `Faculty.assign_course` (faculty.py lines 106-128): fails when a course
with the same code is already in this faculty's `courses_taught`; otherwise
appends the course and sets the shared course object's `instructor` to this
faculty entity. -/
def assign_course (w : TeachWorld) (fid code : String) : Bool × TeachWorld :=
  if code ∈ taughtOf w fid then (false, w)
  else
    (true,
     { facs := setTaught w.facs fid (taughtOf w fid ++ [code]),
       instr := setInstr w.instr code (some fid) })

/-- `Faculty.remove_course` (faculty.py lines 130-153): removes the first
course with the given code from this faculty's `courses_taught` and clears
that course object's `instructor` to None; fails when no such course is
taught. -/
def remove_course (w : TeachWorld) (fid code : String) : Bool × TeachWorld :=
  if code ∈ taughtOf w fid then
    (true,
     { facs := setTaught w.facs fid ((taughtOf w fid).erase code),
       instr := setInstr w.instr code none })
  else (false, w)

/-! ### Specification-side definitions and concrete examples -/

/-- Specification-side filter: an entry matches a given semester filter iff
the filter is absent or the entry's semester label equals the given one
(the literal reading of the spec's `entries matching the given semester`). -/
def matchesFilter (e : Entry) (semester : Option String) : Bool :=
  match semester with
  | some t => e.semester == t
  | none => true

/-- Specification-side selection of one entry: its (grade, credits) pair
when it has a non-null grade and matches the semester filter. -/
def gradedPair (semester : Option String) (ci : String × Entry) : Option (ℚ × Nat) :=
  if matchesFilter ci.2 semester then
    match ci.2.grade with
    | some g => some (g, ci.2.course.credits)
    | none => none
  else none

/-- Specification-side selection: the (grade, credits) pairs of entries
with a non-null grade that match the semester filter. -/
def gradedPairs (s : Student) (semester : Option String) : List (ℚ × Nat) :=
  s.enrolled_courses.filterMap (gradedPair semester)

/-- Specification-side GPA: credit-weighted average of the selected grades
rounded to 2 decimals, 0 when no credits qualify. -/
def claimGpaValue (s : Student) (semester : Option String) : ℚ :=
  let graded := gradedPairs s semester
  let creds : Nat := (graded.map Prod.snd).sum
  if creds = 0 then 0
  else round2 ((graded.map fun p => p.1 * (p.2 : ℚ)).sum / (creds : ℚ))

/-- Specification-side prerequisite condition for one code: the student has
an enrollment entry for it with status Completed and grade at least 2.0. -/
def prereqSatisfied (s : Student) (code : String) : Prop :=
  ∃ e, lookupEntry s.enrolled_courses code = some e ∧
    e.status = Status.Completed ∧ ∃ g, e.grade = some g ∧ 2 ≤ g

/-- States reachable through the Student API: course-code keys are distinct
(Python dict keys), and a graded entry has been marked Completed (the only
writer of a non-null grade, `add_grade`, sets both together). -/
def WellFormed (s : Student) : Prop :=
  (s.enrolled_courses.map Prod.fst).Nodup ∧
  ∀ ci ∈ s.enrolled_courses, ci.2.grade.isSome = true → ci.2.status = Status.Completed

/-- Recording the same grade for a list of course codes, one `add_grade`
call per code. -/
def record_grades (s : Student) (codes : List String) (g : ℚ) : Student :=
  codes.foldl (fun st c => (add_grade st c g).2) s

/-- The two-sided teaching invariant for one faculty entity: its
`courses_taught` list is duplicate-free and holds exactly the courses whose
`instructor` field points back at it. -/
def InSync (w : TeachWorld) (fid : String) : Prop :=
  (taughtOf w fid).Nodup ∧ ∀ c, c ∈ taughtOf w fid ↔ instrOf w c = some fid

/-- A freshly constructed student: no enrollments, no history, initial
status Good Standing, zero credits. -/
def freshStudent : Student :=
  ⟨"STU0", [], [], AcademicStatus.GoodStanding, 0⟩

/-- A 3-credit course (for the worked GPA example). -/
def exCourse3 : Course := ⟨"MATH101", "Calculus", 3, [], 30, ["STU1"], none⟩

/-- A 4-credit course (for the worked GPA example). -/
def exCourse4 : Course := ⟨"CS101", "Programs", 4, [], 30, ["STU1"], none⟩

/-- The spec's worked example: exactly the graded courses
{credits=3, grade=3.0} and {credits=4, grade=4.0}. -/
def exStudent57 : Student :=
  ⟨"STU1",
   [("MATH101", ⟨exCourse3, some 3, "Fall 2025", Status.Completed⟩),
    ("CS101", ⟨exCourse4, some 4, "Fall 2025", Status.Completed⟩)],
   [], AcademicStatus.GoodStanding, 7⟩

/-- A two-faculty world with one unassigned course, the starting point of
the divergence counterexample. -/
def exWorld2 : TeachWorld := ⟨[("F1", []), ("F2", [])], [("C1", none)]⟩

/-- A single-faculty world with one unassigned course. -/
def exWorld1 : TeachWorld := ⟨[("F1", [])], [("C1", none)]⟩

/-- A course already at capacity: limit 1 with one enrolled student. -/
def exFullCourse : Course := ⟨"FULL1", "Full Course", 3, [], 1, ["X"], none⟩

/-- An open course with no prerequisites and free capacity. -/
def exOpenCourse : Course := ⟨"NEW1", "New Course", 3, [], 30, [], none⟩

/-- A course whose only prerequisite is MATH101. -/
def exSeqCourse : Course := ⟨"MATH201", "Calculus II", 3, ["MATH101"], 30, [], none⟩

/-- A student who completed MATH101 with grade 3.0. -/
def exPrereqStudent : Student :=
  ⟨"STU2",
   [("MATH101", ⟨exCourse3, some 3, "Spring 2025", Status.Completed⟩)],
   [], AcademicStatus.GoodStanding, 3⟩

/-- A student enrolled in MATH101 with no grade yet. -/
def exUngradedStudent : Student :=
  ⟨"STU3",
   [("MATH101", ⟨exCourse3, none, "Spring 2025", Status.Enrolled⟩)],
   [], AcademicStatus.GoodStanding, 0⟩

/-! ### Theorems -/

/-- Claim C6: `get_academic_status` recomputes the status from the overall
GPA with DeansList for GPA at least 3.5, GoodStanding on [2.0, 3.5),
Probation on [1.0, 2.0) and Suspension below 1.0 — boundary values fall in
the higher tier — and the computed value overwrites the stored
`academic_status` field as a side effect. -/
theorem academic_status_thresholds (s : Student) (nowSem : String) :
    ((get_academic_status s nowSem).1 = AcademicStatus.DeansList ↔
      (7 : ℚ)/2 ≤ (calculate_gpa s none nowSem).1) ∧
    ((get_academic_status s nowSem).1 = AcademicStatus.GoodStanding ↔
      2 ≤ (calculate_gpa s none nowSem).1 ∧ (calculate_gpa s none nowSem).1 < 7/2) ∧
    ((get_academic_status s nowSem).1 = AcademicStatus.Probation ↔
      1 ≤ (calculate_gpa s none nowSem).1 ∧ (calculate_gpa s none nowSem).1 < 2) ∧
    ((get_academic_status s nowSem).1 = AcademicStatus.Suspension ↔
      (calculate_gpa s none nowSem).1 < 1) ∧
    (get_academic_status s nowSem).2.academic_status = (get_academic_status s nowSem).1 := by
  unfold get_academic_status
  dsimp only
  set g := (calculate_gpa s none nowSem).1 with hg
  split_ifs with h1 h2 h3 <;>
    refine ⟨?_, ?_, ?_, ?_, rfl⟩ <;>
    simp only [true_iff, false_iff, iff_true, iff_false, not_and, not_lt, not_le] <;>
    simp_all only [not_le, not_lt] <;>
    intros <;>
    first
      | trivial
      | linarith

theorem matchesAt_iff : ∀ (p l : List Char), matchesAt p l = true ↔ ∃ t, l = p ++ t
  | [], l => by simp [matchesAt]
  | _ :: _, [] => by simp [matchesAt]
  | c :: cs, a :: as => by
    simp only [matchesAt, Bool.and_eq_true, beq_iff_eq, List.cons_append, List.cons.injEq,
      matchesAt_iff cs as]
    constructor
    · rintro ⟨rfl, t, rfl⟩
      exact ⟨t, rfl, rfl⟩
    · rintro ⟨t, rfl, rfl⟩
      exact ⟨rfl, t, rfl⟩

theorem subScan_iff (pat : List Char) : ∀ l, subScan pat l = true ↔ ∃ a b, l = a ++ pat ++ b
  | [] => by
    rw [subScan, matchesAt_iff]
    constructor
    · rintro ⟨t, ht⟩
      exact ⟨[], t, by simpa using ht⟩
    · rintro ⟨a, b, h⟩
      rcases List.append_eq_nil.mp h.symm with ⟨h1, rfl⟩
      rcases List.append_eq_nil.mp h1 with ⟨rfl, hp⟩
      exact ⟨[], by simp [hp]⟩
  | c :: cs => by
    rw [subScan, Bool.or_eq_true, matchesAt_iff, subScan_iff pat cs]
    constructor
    · rintro (⟨t, ht⟩ | ⟨a, b, rfl⟩)
      · exact ⟨[], t, by simpa using ht⟩
      · exact ⟨c :: a, b, rfl⟩
    · rintro ⟨a, b, h⟩
      cases a with
      | nil => exact Or.inl ⟨b, by simpa using h⟩
      | cons x xs =>
        rw [List.cons_append] at h
        injection h with h1 h2
        exact Or.inr ⟨xs, b, h2⟩

theorem hasSubstr_iff (s pat : String) :
    hasSubstr s pat = true ↔ ∃ a b, s.toList = a ++ pat.toList ++ b := by
  rw [hasSubstr]
  exact subScan_iff _ _

/-- Claim C8: undergraduate `can_graduate` is true iff total_credits is at
least 120 and the overall GPA at least 2.0, both simultaneously; graduate
`can_graduate` is true iff total_credits and GPA meet the degree-specific
thresholds ({36, 3.0} for Masters, {72, 3.0} for PhD) and the credits of
courses whose name contains the substring "Research" (characterised below
as honest list-level substring containment) meet the degree-specific
research threshold (6 for Masters, 24 for PhD). -/
theorem can_graduate_thresholds (s : Student) (nowSem : String) :
    (ug_can_graduate s nowSem = true ↔
      120 ≤ s.total_credits ∧ 2 ≤ (calculate_gpa s none nowSem).1) ∧
    (grad_can_graduate "Masters" s nowSem = true ↔
      36 ≤ s.total_credits ∧ 3 ≤ (calculate_gpa s none nowSem).1 ∧
        6 ≤ grad_research_credits s) ∧
    (grad_can_graduate "PhD" s nowSem = true ↔
      72 ≤ s.total_credits ∧ 3 ≤ (calculate_gpa s none nowSem).1 ∧
        24 ≤ grad_research_credits s) ∧
    (∀ name : String, hasSubstr name "Research" = true ↔
      ∃ a b, name.toList = a ++ "Research".toList ++ b) := by
  refine ⟨?_, ?_, ?_, fun name => hasSubstr_iff name "Research"⟩ <;>
    simp [ug_can_graduate, grad_can_graduate, ug_requirements, grad_requirements,
      Bool.and_eq_true, decide_eq_true_iff, and_assoc]

theorem lookupEntry_setEntry_self : ∀ (l : List (String × Entry)) (code : String) (e e' : Entry),
    lookupEntry l code = some e → lookupEntry (setEntry l code e') code = some e'
  | [], _, _, _, h => by simp [lookupEntry] at h
  | ci :: rest, code, e, e', h => by
    by_cases hc : ci.1 = code
    · simp [setEntry, lookupEntry, hc]
    · simp only [lookupEntry, if_neg hc] at h
      simp only [setEntry, if_neg hc, lookupEntry, if_neg hc]
      exact lookupEntry_setEntry_self rest code e e' h

theorem lookupEntry_setEntry_ne : ∀ (l : List (String × Entry)) (code c : String) (e' : Entry),
    c ≠ code → lookupEntry (setEntry l code e') c = lookupEntry l c
  | [], _, _, _, _ => rfl
  | ci :: rest, code, c, e', h => by
    by_cases hc : ci.1 = code
    · subst hc
      simp [setEntry, lookupEntry, Ne.symm h]
    · by_cases h2 : ci.1 = c
      · simp [setEntry, lookupEntry, hc, h2, h]
      · simp [setEntry, lookupEntry, hc, h2, h,
          lookupEntry_setEntry_ne rest code c e' h]

theorem add_grade_eq_of_some (s : Student) (code : String) (g : ℚ) (e : Entry)
    (h : lookupEntry s.enrolled_courses code = some e) (h0 : 0 ≤ g) (h4 : g ≤ 4) :
    add_grade s code g =
      (Except.ok (),
       { s with
         enrolled_courses :=
           setEntry s.enrolled_courses code ({ e with grade := some g, status := Status.Completed }),
         total_credits := s.total_credits + e.course.credits }) := by
  simp [add_grade, h, h0, h4]

theorem add_grade_lookup_ne (s : Student) (code c : String) (g : ℚ) (h : c ≠ code) :
    lookupEntry (add_grade s code g).2.enrolled_courses c = lookupEntry s.enrolled_courses c := by
  rcases hl : lookupEntry s.enrolled_courses code with _ | e
  · simp [add_grade, hl]
  · by_cases hg : 0 ≤ g ∧ g ≤ 4
    · simp [add_grade, hl, hg, lookupEntry_setEntry_ne _ _ _ _ h]
    · simp [add_grade, hl, hg]

theorem calculate_gpa_total (s : Student) (sem : Option String) (nowSem : String) :
    (calculate_gpa s sem nowSem).2.total_credits = s.total_credits := by
  unfold calculate_gpa
  dsimp only
  split_ifs <;> rfl

/-- Claim C7: `total_credits` is a monotonic accumulator: each successful
`add_grade` adds the stored course's credits (a second successful call on
the same code re-adds them), no `add_grade` outcome decreases it, and
`drop_course`, `enroll_course`, `calculate_gpa` and `get_academic_status`
leave it unchanged. -/
theorem total_credits_monotone (s : Student) (code : String) (g g' : ℚ)
    (course : Course) (sem : Option String) (nowSem : String) :
    (∀ e, lookupEntry s.enrolled_courses code = some e → 0 ≤ g → g ≤ 4 →
      (add_grade s code g).2.total_credits = s.total_credits + e.course.credits ∧
      (0 ≤ g' → g' ≤ 4 →
        (add_grade (add_grade s code g).2 code g').2.total_credits =
          s.total_credits + e.course.credits + e.course.credits)) ∧
    s.total_credits ≤ (add_grade s code g).2.total_credits ∧
    (drop_course s code).2.1.total_credits = s.total_credits ∧
    (enroll_course s course sem nowSem).2.1.total_credits = s.total_credits ∧
    (calculate_gpa s sem nowSem).2.total_credits = s.total_credits ∧
    (get_academic_status s nowSem).2.total_credits = s.total_credits := by
  refine ⟨?_, ?_, ?_, ?_, calculate_gpa_total s sem nowSem, ?_⟩
  · intro e he h0 h4
    have h1 := add_grade_eq_of_some s code g e he h0 h4
    constructor
    · rw [h1]
    · intro h0' h4'
      have he2 : lookupEntry (add_grade s code g).2.enrolled_courses code =
          some { e with grade := some g, status := Status.Completed } := by
        rw [h1]
        exact lookupEntry_setEntry_self _ _ _ _ he
      have h2 := add_grade_eq_of_some _ code g' _ he2 h0' h4'
      rw [h2, h1]
  · rcases hl : lookupEntry s.enrolled_courses code with _ | e
    · simp [add_grade, hl]
    · by_cases hg : 0 ≤ g ∧ g ≤ 4
      · simp only [add_grade, hl, hg, if_pos]
        exact Nat.le_add_right _ _
      · simp [add_grade, hl, hg]
  · rcases hl : lookupEntry s.enrolled_courses code with _ | e <;>
      simp [drop_course, hl]
  · unfold enroll_course
    split_ifs <;> rfl
  · unfold get_academic_status
    dsimp only
    exact calculate_gpa_total s none nowSem

theorem total_credits_monotone_witness :
    (add_grade exStudent57 "MATH101" 3).2.total_credits = 7 + 3 ∧
    (add_grade (add_grade exStudent57 "MATH101" 3).2 "MATH101" 2).2.total_credits = 7 + 3 + 3 ∧
    (drop_course exStudent57 "MATH101").2.1.total_credits = 7 := by
  have h := (total_credits_monotone exStudent57 "MATH101" 3 2 exCourse3 none "Fall 2025")
  have h1 := h.1 ⟨exCourse3, some 3, "Fall 2025", Status.Completed⟩ rfl (by norm_num) (by norm_num)
  exact ⟨h1.1, h1.2 (by norm_num) (by norm_num), h.2.2.1⟩

theorem lookupEntry_append_of_none : ∀ (l₁ l₂ : List (String × Entry)) (code : String),
    lookupEntry l₁ code = none → lookupEntry (l₁ ++ l₂) code = lookupEntry l₂ code
  | [], _, _, _ => rfl
  | ci :: rest, l₂, code, h => by
    by_cases hc : ci.1 = code
    · simp [lookupEntry, hc] at h
    · simp only [lookupEntry, if_neg hc] at h
      simp only [List.cons_append, lookupEntry, if_neg hc]
      exact lookupEntry_append_of_none rest l₂ code h

/-- Claim C3: with the student not already enrolled, enrollment in a course
whose `enrolled_students` length has reached `max_enrollment` fails with
CourseFull and leaves both the student and the course unchanged; below
capacity (with prerequisites met) it succeeds, inserts an Enrolled record
with no grade under the course code, and appends the student id to
`course.enrolled_students`, increasing its length by exactly 1. -/
theorem enroll_capacity_spec (s : Student) (course : Course) (sem : Option String)
    (nowSem : String)
    (hne : lookupEntry s.enrolled_courses course.course_code = none) :
    (course.max_enrollment ≤ course.enrolled_students.length →
      enroll_course s course sem nowSem = (Except.error EnrollError.CourseFull, s, course)) ∧
    (course.enrolled_students.length < course.max_enrollment →
      check_prerequisites s course.prerequisites = true →
      (enroll_course s course sem nowSem).1 = Except.ok () ∧
      (∃ e, lookupEntry (enroll_course s course sem nowSem).2.1.enrolled_courses
          course.course_code = some e ∧ e.status = Status.Enrolled ∧ e.grade = none) ∧
      (enroll_course s course sem nowSem).2.2.enrolled_students =
        course.enrolled_students ++ [s.student_id] ∧
      (enroll_course s course sem nowSem).2.2.enrolled_students.length =
        course.enrolled_students.length + 1) := by
  constructor
  · intro hfull
    simp [enroll_course, hne, hfull]
  · intro hcap hchk
    have hfull : ¬ course.max_enrollment ≤ course.enrolled_students.length :=
      Nat.not_le.mpr hcap
    refine ⟨?_, ?_, ?_, ?_⟩
    · simp [enroll_course, hne, hfull, hchk]
    · simp only [enroll_course, hne, Option.isSome_none, Bool.false_eq_true, if_false,
        if_neg hfull, hchk, not_true_eq_false]
      rw [lookupEntry_append_of_none _ _ _ hne]
      refine ⟨⟨{ course with enrolled_students := course.enrolled_students ++ [s.student_id] },
               none,
               (match sem with | some t => if t = "" then nowSem else t | none => nowSem),
               Status.Enrolled⟩, ?_, rfl, rfl⟩
      simp [lookupEntry]
    · simp [enroll_course, hne, hfull, hchk]
    · simp [enroll_course, hne, hfull, hchk]

theorem enroll_capacity_spec_witness :
    enroll_course freshStudent exFullCourse none "Fall 2025" =
      (Except.error EnrollError.CourseFull, freshStudent, exFullCourse) ∧
    (enroll_course freshStudent exOpenCourse none "Fall 2025").1 = Except.ok () ∧
    (enroll_course freshStudent exOpenCourse none "Fall 2025").2.2.enrolled_students.length =
      0 + 1 := by
  have h1 := (enroll_capacity_spec freshStudent exFullCourse none "Fall 2025" rfl).1
    (by decide)
  have h2 := (enroll_capacity_spec freshStudent exOpenCourse none "Fall 2025" rfl).2
    (by decide) (by decide)
  exact ⟨h1, h2.1, h2.2.2.2⟩

theorem lookupEntry_some_mem : ∀ (l : List (String × Entry)) (code : String) (e : Entry),
    lookupEntry l code = some e → (code, e) ∈ l
  | [], _, _, h => by simp [lookupEntry] at h
  | ci :: rest, code, e, h => by
    by_cases hc : ci.1 = code
    · simp only [lookupEntry, if_pos hc, Option.some.injEq] at h
      subst hc
      subst h
      exact List.mem_cons_self _ _
    · simp only [lookupEntry, if_neg hc] at h
      exact List.mem_cons_of_mem _ (lookupEntry_some_mem rest code e h)

theorem mem_lookupEntry_of_nodup : ∀ (l : List (String × Entry)), (l.map Prod.fst).Nodup →
    ∀ (code : String) (e : Entry), (code, e) ∈ l → lookupEntry l code = some e
  | [], _, _, _, h => by simp at h
  | ci :: rest, hnd, code, e, h => by
    simp only [List.map_cons, List.nodup_cons] at hnd
    rcases List.mem_cons.mp h with h1 | h1
    · rw [← h1]
      simp [lookupEntry]
    · have hkey : ci.1 ≠ code := by
        intro hc
        exact hnd.1 (hc ▸ (List.mem_map.mpr ⟨(code, e), h1, rfl⟩))
      simp only [lookupEntry, if_neg hkey]
      exact mem_lookupEntry_of_nodup rest hnd.2 code e h1

theorem check_prerequisites_true_of (s : Student) (l : List String)
    (h : ∀ p ∈ l, ∃ e, lookupEntry s.enrolled_courses p = some e ∧
      ∃ g, e.grade = some g ∧ 2 ≤ g) :
    check_prerequisites s l = true := by
  unfold check_prerequisites
  rw [List.all_eq_true]
  intro p hp
  obtain ⟨e, he, g, hg, h2⟩ := h p hp
  rw [List.contains_iff_exists_mem_beq]
  refine ⟨p, ?_, by simp⟩
  apply List.mem_filterMap.mpr
  exact ⟨(p, e), lookupEntry_some_mem _ _ _ he, by simp [hg, h2]⟩

theorem check_prerequisites_iff_sat (s : Student) (l : List String) (hwf : WellFormed s) :
    check_prerequisites s l = true ↔ ∀ p ∈ l, prereqSatisfied s p := by
  constructor
  · intro hchk p hp
    unfold check_prerequisites at hchk
    rw [List.all_eq_true] at hchk
    have hc := hchk p hp
    rw [List.contains_iff_exists_mem_beq] at hc
    obtain ⟨q, hq, hbeq⟩ := hc
    have hpq : p = q := by simpa using hbeq
    subst hpq
    obtain ⟨ci, hci, hsome⟩ := List.mem_filterMap.mp hq
    rcases hgr : ci.2.grade with _ | g
    · simp [hgr] at hsome
    · by_cases h2 : (2:ℚ) ≤ g
      · simp only [hgr, if_pos h2, Option.some.injEq] at hsome
        subst hsome
        have hlk := mem_lookupEntry_of_nodup s.enrolled_courses hwf.1 ci.1 ci.2 (by
          cases ci; exact hci)
        have hst := hwf.2 ci hci (by simp [hgr])
        exact ⟨ci.2, hlk, hst, g, hgr, h2⟩
      · simp [hgr, h2] at hsome
  · intro hsat
    apply check_prerequisites_true_of
    intro p hp
    obtain ⟨e, he, _, g, hg, h2⟩ := hsat p hp
    exact ⟨e, he, g, hg, h2⟩

theorem record_grades_lookup (g : ℚ) (h2 : 2 ≤ g) (h4 : g ≤ 4) :
    ∀ (codes : List String) (s : Student),
      (∀ p ∈ codes, (lookupEntry s.enrolled_courses p).isSome = true) →
      (∀ p ∈ codes, ∃ e, lookupEntry (record_grades s codes g).enrolled_courses p = some e ∧
        e.grade = some g ∧ e.status = Status.Completed) ∧
      (∀ q, (∀ p ∈ codes, q ≠ p) →
        lookupEntry (record_grades s codes g).enrolled_courses q =
          lookupEntry s.enrolled_courses q)
  | [], s, _ => ⟨by simp, fun _ _ => rfl⟩
  | c :: cs, s, hall => by
    have h0 : (0:ℚ) ≤ g := le_trans (by norm_num) h2
    obtain ⟨e, he⟩ := Option.isSome_iff_exists.mp (hall c (List.mem_cons_self c cs))
    have hstep := add_grade_eq_of_some s c g e he h0 h4
    have hc1 : lookupEntry (add_grade s c g).2.enrolled_courses c =
        some { e with grade := some g, status := Status.Completed } := by
      rw [hstep]
      exact lookupEntry_setEntry_self _ _ _ _ he
    have hoth : ∀ q, q ≠ c →
        lookupEntry (add_grade s c g).2.enrolled_courses q = lookupEntry s.enrolled_courses q :=
      fun q hq => add_grade_lookup_ne s c q g hq
    have hall' : ∀ p ∈ cs, (lookupEntry (add_grade s c g).2.enrolled_courses p).isSome = true := by
      intro p hp
      by_cases hpc : p = c
      · subst hpc
        rw [hc1]
        rfl
      · rw [hoth p hpc]
        exact hall p (List.mem_cons_of_mem c hp)
    have ih := record_grades_lookup g h2 h4 cs (add_grade s c g).2 hall'
    have hrec : record_grades s (c :: cs) g = record_grades (add_grade s c g).2 cs g := rfl
    rw [hrec]
    constructor
    · intro p hp
      rcases List.mem_cons.mp hp with rfl | hp'
      · by_cases hpcs : p ∈ cs
        · exact ih.1 p hpcs
        · have hne : ∀ p' ∈ cs, p ≠ p' := fun p' hp' heq => hpcs (heq ▸ hp')
          rw [ih.2 p hne, hc1]
          exact ⟨_, rfl, rfl, rfl⟩
      · exact ih.1 p hp'
    · intro q hq
      have hqc : q ≠ c := hq c (List.mem_cons_self c cs)
      rw [ih.2 q (fun p hp => hq p (List.mem_cons_of_mem c hp)), hoth q hqc]

/-- Claim C2: with the student not already enrolled and the course below
capacity, enrollment fails with PrerequisitesUnmet exactly when some
prerequisite code lacks an entry with status Completed and grade at least
2.0 (and succeeds exactly when every prerequisite has one); and after
recording a grade between 2.0 and 4.0 for every prerequisite via
`add_grade`, the same enrollment call succeeds. -/
theorem enroll_prerequisites_spec (s : Student) (course : Course) (sem : Option String)
    (nowSem : String) (hwf : WellFormed s)
    (hne : lookupEntry s.enrolled_courses course.course_code = none)
    (hcap : course.enrolled_students.length < course.max_enrollment) :
    ((enroll_course s course sem nowSem).1 = Except.error EnrollError.PrerequisitesUnmet ↔
      ¬ ∀ p ∈ course.prerequisites, prereqSatisfied s p) ∧
    ((enroll_course s course sem nowSem).1 = Except.ok () ↔
      ∀ p ∈ course.prerequisites, prereqSatisfied s p) ∧
    (∀ g : ℚ, 2 ≤ g → g ≤ 4 →
      (∀ p ∈ course.prerequisites, (lookupEntry s.enrolled_courses p).isSome = true) →
      (enroll_course (record_grades s course.prerequisites g) course sem nowSem).1 =
        Except.ok ()) := by
  have hfull : ¬ course.max_enrollment ≤ course.enrolled_students.length := Nat.not_le.mpr hcap
  have hiff := check_prerequisites_iff_sat s course.prerequisites hwf
  have hthird : ∀ g : ℚ, 2 ≤ g → g ≤ 4 →
      (∀ p ∈ course.prerequisites, (lookupEntry s.enrolled_courses p).isSome = true) →
      (enroll_course (record_grades s course.prerequisites g) course sem nowSem).1 =
        Except.ok () := by
    intro g h2 h4 hall
    have hrg := record_grades_lookup g h2 h4 course.prerequisites s hall
    have hnotin : course.course_code ∉ course.prerequisites := by
      intro hin
      have hs := hall _ hin
      rw [hne] at hs
      simp at hs
    have hne' : lookupEntry (record_grades s course.prerequisites g).enrolled_courses
        course.course_code = none := by
      rw [hrg.2 course.course_code (fun p hp hq => hnotin (by rw [hq]; exact hp))]
      exact hne
    have hchk : check_prerequisites (record_grades s course.prerequisites g)
        course.prerequisites = true := by
      apply check_prerequisites_true_of
      intro p hp
      obtain ⟨e, he, hg, _⟩ := hrg.1 p hp
      exact ⟨e, he, g, hg, h2⟩
    simp [enroll_course, hne', hfull, hchk]
  by_cases hb : check_prerequisites s course.prerequisites = true
  · have hres : (enroll_course s course sem nowSem).1 = Except.ok () := by
      simp [enroll_course, hne, hfull, hb]
    refine ⟨?_, ?_, hthird⟩
    · rw [hres]
      simp
      exact hiff.mp hb
    · rw [hres]
      simp
      exact hiff.mp hb
  · have hres : (enroll_course s course sem nowSem).1 =
        Except.error EnrollError.PrerequisitesUnmet := by
      simp [enroll_course, hne, hfull, hb]
    refine ⟨?_, ?_, hthird⟩
    · rw [hres]
      simp only [true_iff]
      exact fun hsat => hb (hiff.mpr hsat)
    · rw [hres]
      simp only [reduceCtorEq, false_iff]
      exact fun hsat => hb (hiff.mpr hsat)

theorem enroll_prerequisites_spec_witness :
    (enroll_course exPrereqStudent exSeqCourse none "Fall 2025").1 = Except.ok () ∧
    (enroll_course freshStudent exSeqCourse none "Fall 2025").1 =
      Except.error EnrollError.PrerequisitesUnmet ∧
    (enroll_course (record_grades exUngradedStudent ["MATH101"] 3) exSeqCourse none
      "Fall 2025").1 = Except.ok () := by
  have hwf1 : WellFormed exPrereqStudent := ⟨by decide, by decide⟩
  have hwf2 : WellFormed freshStudent := ⟨by decide, by decide⟩
  have hwf3 : WellFormed exUngradedStudent := ⟨by decide, by decide⟩
  refine ⟨?_, ?_, ?_⟩
  · refine (enroll_prerequisites_spec exPrereqStudent exSeqCourse none "Fall 2025" hwf1
      rfl (by decide)).2.1.mpr ?_
    intro p hp
    have hp1 : p = "MATH101" := by simpa [exSeqCourse] using hp
    subst hp1
    exact ⟨⟨exCourse3, some 3, "Spring 2025", Status.Completed⟩, rfl, rfl, 3, rfl, by norm_num⟩
  · refine (enroll_prerequisites_spec freshStudent exSeqCourse none "Fall 2025" hwf2
      rfl (by decide)).1.mpr ?_
    intro hall
    obtain ⟨e, he, _⟩ := hall "MATH101" (by simp [exSeqCourse])
    simp [lookupEntry, freshStudent] at he
  · refine (enroll_prerequisites_spec exUngradedStudent exSeqCourse none "Fall 2025" hwf3
      rfl (by decide)).2.2 3 (by norm_num) (by norm_num) ?_
    intro p hp
    have hp1 : p = "MATH101" := by simpa [exSeqCourse] using hp
    subst hp1
    rfl

theorem skip_iff_not_matches (e : Entry) (sem : Option String) (hsem : sem ≠ some "") :
    ((semFilterActive sem = true) ∧ some e.semester ≠ sem) ↔ matchesFilter e sem = false := by
  cases sem with
  | none => simp [semFilterActive, matchesFilter]
  | some t =>
    have ht : t ≠ "" := fun h => hsem (by rw [h])
    simp [semFilterActive, matchesFilter, ht]

theorem foldl_gpaStep (sem : Option String) (hsem : sem ≠ some "") :
    ∀ (l : List (String × Entry)) (a : ℚ) (b : Nat),
      l.foldl (gpaStep sem) (a, b) =
        (a + ((l.filterMap (gradedPair sem)).map fun p => p.1 * (p.2 : ℚ)).sum,
         b + ((l.filterMap (gradedPair sem)).map Prod.snd).sum)
  | [], a, b => by simp
  | ci :: l, a, b => by
    rw [List.foldl_cons, List.filterMap_cons]
    by_cases hm : matchesFilter ci.2 sem = true
    · rcases hg : ci.2.grade with _ | g
      · have hstep : gpaStep sem (a, b) ci = (a, b) := by
          unfold gpaStep
          split_ifs with h
          · rfl
          · rw [hg]
        have hpair : gradedPair sem ci = none := by
          unfold gradedPair
          rw [if_pos hm, hg]
        rw [hstep, hpair, foldl_gpaStep sem hsem l a b]
      · have hskip : ¬ ((semFilterActive sem = true) ∧ some ci.2.semester ≠ sem) := by
          rw [skip_iff_not_matches ci.2 sem hsem]
          simp [hm]
        have hstep : gpaStep sem (a, b) ci =
            (a + g * ci.2.course.credits, b + ci.2.course.credits) := by
          unfold gpaStep
          rw [if_neg hskip, hg]
        have hpair : gradedPair sem ci = some (g, ci.2.course.credits) := by
          unfold gradedPair
          rw [if_pos hm, hg]
        rw [hstep, hpair, foldl_gpaStep sem hsem l _ _]
        simp only [List.map_cons, List.sum_cons, Prod.mk.injEq]
        constructor
        · ring
        · omega
    · have hskip : (semFilterActive sem = true) ∧ some ci.2.semester ≠ sem := by
        rw [skip_iff_not_matches ci.2 sem hsem]
        simpa using hm
      have hstep : gpaStep sem (a, b) ci = (a, b) := by
        unfold gpaStep
        rw [if_pos hskip]
      have hpair : gradedPair sem ci = none := by
        unfold gradedPair
        rw [if_neg hm]
      rw [hstep, hpair, foldl_gpaStep sem hsem l a b]

theorem gpa_sums_eq_pairs (s : Student) (sem : Option String) (hsem : sem ≠ some "") :
    gpa_sums s sem = (((gradedPairs s sem).map fun p => p.1 * (p.2 : ℚ)).sum,
                      ((gradedPairs s sem).map Prod.snd).sum) := by
  unfold gpa_sums gradedPairs
  rw [foldl_gpaStep sem hsem]
  simp

theorem gpa_sums_exStudent57 : gpa_sums exStudent57 none = (25, 7) := by
  norm_num [gpa_sums, gpaStep, exStudent57, exCourse3, exCourse4, semFilterActive]

theorem gpa_sums_exStudent57_empty : gpa_sums exStudent57 (some "") = (25, 7) := by
  norm_num [gpa_sums, gpaStep, exStudent57, exCourse3, exCourse4, semFilterActive]

theorem round2_25_7 : round2 ((25:ℚ)/7) = 357/100 := by
  have h : ⌊(25:ℚ)/7 * 100 + 1/2⌋ = 357 := by
    rw [Int.floor_eq_iff]
    constructor <;> norm_num
  unfold round2
  rw [round_eq, h]
  norm_num

theorem calculate_gpa_exStudent57 :
    (calculate_gpa exStudent57 none "Fall 2025").1 = 357/100 := by
  simp only [calculate_gpa, gpa_sums_exStudent57]
  norm_num [round2_25_7]

/-- Claim C4 (amended): for every student and semester filter that is
omitted or a non-empty string, `calculate_gpa` returns the credit-weighted
average of grades over entries with a non-null grade matching the filter
(all graded entries when omitted), rounded to 2 decimal places, and 0.0
when no credits qualify; in particular over exactly the graded courses
{credits=3, grade=3.0} and {credits=4, grade=4.0} it returns 3.57. (An
empty-string filter is instead treated like an omitted one by Python
truthiness — see the counterexample.) -/
theorem calculate_gpa_weighted_average (s : Student) (sem : Option String)
    (nowSem : String) (hsem : sem ≠ some "") :
    (calculate_gpa s sem nowSem).1 = claimGpaValue s sem ∧
    (calculate_gpa exStudent57 none "Fall 2025").1 = 357/100 := by
  refine ⟨?_, calculate_gpa_exStudent57⟩
  unfold calculate_gpa claimGpaValue
  rw [gpa_sums_eq_pairs s sem hsem]
  dsimp only
  split_ifs <;> simp

theorem calculate_gpa_weighted_average_witness :
    (calculate_gpa exStudent57 (some "Fall 2025") "Fall 2025").1 =
      claimGpaValue exStudent57 (some "Fall 2025") ∧
    (calculate_gpa exStudent57 none "Fall 2025").1 = 357/100 := by
  exact calculate_gpa_weighted_average exStudent57 (some "Fall 2025") "Fall 2025" (by decide)

/-- Claim C4 counterexample: at the explicit input filter = some "" the
code treats the filter as absent (Python truthiness `if semester`) and
returns 3.57 averaged over all graded entries, while the claim's reading —
the weighted average over entries matching the filter, 0.0 when no credits
qualify — yields 0.0 because no entry carries the semester label "". -/
theorem calculate_gpa_empty_filter_cex :
    (calculate_gpa exStudent57 (some "") "Fall 2025").1 = 357/100 ∧
    claimGpaValue exStudent57 (some "") = 0 ∧
    (calculate_gpa exStudent57 (some "") "Fall 2025").1 ≠
      claimGpaValue exStudent57 (some "") := by
  have h1 : (calculate_gpa exStudent57 (some "") "Fall 2025").1 = 357/100 := by
    simp only [calculate_gpa, gpa_sums_exStudent57_empty]
    norm_num [round2_25_7]
  have h2 : claimGpaValue exStudent57 (some "") = 0 := by decide
  refine ⟨h1, h2, ?_⟩
  rw [h1, h2]
  norm_num

theorem upsertHistory_countP_self (sem : String) (gpa : ℚ) (credits : Nat) :
    ∀ l : List GpaRecord,
      (upsertHistory l sem gpa credits).countP (fun r => r.semester == sem) =
        if l.countP (fun r => r.semester == sem) = 0 then 1
        else l.countP (fun r => r.semester == sem)
  | [] => by simp [upsertHistory, List.countP_cons]
  | r :: rest => by
    by_cases hr : r.semester = sem
    · simp [upsertHistory, hr, List.countP_cons]
    · simp only [upsertHistory, if_neg hr, List.countP_cons,
        upsertHistory_countP_self sem gpa credits rest]
      simp [hr]

theorem upsertHistory_countP_ne (sem t : String) (h : t ≠ sem) (gpa : ℚ) (credits : Nat) :
    ∀ l : List GpaRecord,
      (upsertHistory l sem gpa credits).countP (fun r => r.semester == t) =
        l.countP (fun r => r.semester == t)
  | [] => by simp [upsertHistory, List.countP_cons, Ne.symm h]
  | r :: rest => by
    by_cases hr : r.semester = sem
    · simp [upsertHistory, hr, List.countP_cons, Ne.symm h]
    · simp only [upsertHistory, if_neg hr, List.countP_cons,
        upsertHistory_countP_ne sem t h gpa credits rest]

theorem upsertHistory_filter_ne (sem : String) (gpa : ℚ) (credits : Nat) :
    ∀ l : List GpaRecord,
      (upsertHistory l sem gpa credits).filter (fun r => !(r.semester == sem)) =
        l.filter (fun r => !(r.semester == sem))
  | [] => by simp [upsertHistory]
  | r :: rest => by
    by_cases hr : r.semester = sem
    · simp [upsertHistory, hr]
    · simp only [upsertHistory, if_neg hr, List.filter_cons,
        upsertHistory_filter_ne sem gpa credits rest]

theorem upsertHistory_find (sem : String) (gpa : ℚ) (credits : Nat) :
    ∀ l : List GpaRecord,
      (upsertHistory l sem gpa credits).find? (fun r => r.semester == sem) =
        some ⟨sem, gpa, credits⟩
  | [] => by simp [upsertHistory, List.find?]
  | r :: rest => by
    by_cases hr : r.semester = sem
    · simp [upsertHistory, hr, List.find?]
    · simp only [upsertHistory, if_neg hr]
      rw [List.find?_cons_of_neg _ (by simp [hr])]
      exact upsertHistory_find sem gpa credits rest

/-- Claim C5 (amended): a `calculate_gpa` call with no semester filter and
at least one graded entry upserts `gpa_history` keyed by the current
computed semester label — replacing the record for that label in place when
present, otherwise appending one — so `gpa_history` keeps at most one
record per semester; a no-filter call that finds no qualifying credits
returns 0.0 and leaves `gpa_history` untouched (see the counterexample). -/
theorem gpa_history_upsert (s : Student) (nowSem : String)
    (h : (gpa_sums s none).2 ≠ 0) :
    (calculate_gpa s none nowSem).2.gpa_history =
      upsertHistory s.gpa_history nowSem
        (round2 ((gpa_sums s none).1 / ((gpa_sums s none).2 : ℚ))) (gpa_sums s none).2 ∧
    (s.gpa_history.countP (fun r => r.semester == nowSem) ≤ 1 →
      (calculate_gpa s none nowSem).2.gpa_history.countP
        (fun r => r.semester == nowSem) = 1) ∧
    (∀ t, s.gpa_history.countP (fun r => r.semester == t) ≤ 1 →
      (calculate_gpa s none nowSem).2.gpa_history.countP
        (fun r => r.semester == t) ≤ 1) ∧
    (calculate_gpa s none nowSem).2.gpa_history.filter (fun r => !(r.semester == nowSem)) =
      s.gpa_history.filter (fun r => !(r.semester == nowSem)) ∧
    (calculate_gpa s none nowSem).2.gpa_history.find? (fun r => r.semester == nowSem) =
      some ⟨nowSem, round2 ((gpa_sums s none).1 / ((gpa_sums s none).2 : ℚ)),
        (gpa_sums s none).2⟩ := by
  have hmain : (calculate_gpa s none nowSem).2.gpa_history =
      upsertHistory s.gpa_history nowSem
        (round2 ((gpa_sums s none).1 / ((gpa_sums s none).2 : ℚ))) (gpa_sums s none).2 := by
    unfold calculate_gpa
    dsimp only
    rw [if_neg h]
    simp
  refine ⟨hmain, ?_, ?_, ?_, ?_⟩
  · intro hle
    rw [hmain, upsertHistory_countP_self]
    split_ifs with h0
    · rfl
    · omega
  · intro t hle
    by_cases ht : t = nowSem
    · subst ht
      rw [hmain, upsertHistory_countP_self]
      split_ifs with h0 <;> omega
    · rw [hmain, upsertHistory_countP_ne nowSem t ht]
      exact hle
  · rw [hmain, upsertHistory_filter_ne]
  · rw [hmain, upsertHistory_find]

theorem gpa_history_upsert_witness :
    (calculate_gpa exStudent57 none "Fall 2025").2.gpa_history.countP
      (fun r => r.semester == "Fall 2025") = 1 := by
  exact (gpa_history_upsert exStudent57 "Fall 2025" (by decide)).2.1 (by decide)

/-- Claim C5 counterexample: a no-filter `calculate_gpa` call on a freshly
constructed student (no graded entries, zero qualifying credits) returns
early without upserting `gpa_history`: afterwards the history holds no
record keyed by the current computed semester label, contradicting the
claim that every no-filter call upserts. -/
theorem gpa_history_no_upsert_cex :
    (calculate_gpa freshStudent none "Fall 2025").2.gpa_history = [] ∧
    ¬ ∃ r ∈ (calculate_gpa freshStudent none "Fall 2025").2.gpa_history,
        r.semester = "Fall 2025" := by
  exact ⟨by decide, by decide⟩

/-- Claim C1 (amended): every gateway operation on a `SecureStudentRecord`
appends exactly one `access_log` entry on success or failure — except
`get_student_info` on a locked record, which raises the Locked error before
any logging, appending nothing and leaving the record unchanged — and while
`locked` is true `get_student_info` fails with the Locked error (no gateway
operation other than unlock_record clears the gate) until `unlock_record`
is called, after which it succeeds again. -/
theorem secure_gateway_logging (r : SecureStudentRecord) (course : Course)
    (req req2 : String) (sem : Option String) (nowSem : String) (code : String) (g : ℚ) :
    (r.locked = false →
      (get_student_info r req).1 = Except.ok r.student.student_id ∧
      (get_student_info r req).2.access_log = r.access_log ++
        [⟨req, "info_access", r.student.student_id⟩]) ∧
    (r.locked = true →
      (get_student_info r req).1 = Except.error SecError.Locked ∧
      (get_student_info r req).2 = r) ∧
    (∃ en, (enroll_course_secure r course req sem nowSem).2.1.access_log =
      r.access_log ++ [en]) ∧
    (∃ en, (update_gpa_secure r code g req).2.access_log = r.access_log ++ [en]) ∧
    (lock_record r req).access_log.length = r.access_log.length + 1 ∧
    (unlock_record r req).access_log.length = r.access_log.length + 1 ∧
    (lock_record r req).locked = true ∧
    (unlock_record r req).locked = false ∧
    (enroll_course_secure r course req sem nowSem).2.1.locked = r.locked ∧
    (update_gpa_secure r code g req).2.locked = r.locked ∧
    (get_student_info r req).2.locked = r.locked ∧
    (get_student_info (unlock_record r req) req2).1 =
      Except.ok r.student.student_id := by
  refine ⟨?_, ?_, ?_, ?_, ?_, ?_, ?_, ?_, ?_, ?_, ?_, ?_⟩
  · intro h
    simp [get_student_info, h, log_access]
  · intro h
    simp [get_student_info, h]
  · unfold enroll_course_secure
    dsimp only
    split_ifs <;> exact ⟨_, rfl⟩
  · unfold update_gpa_secure
    dsimp only
    split_ifs <;> exact ⟨_, rfl⟩
  · simp [lock_record, log_access]
  · simp [unlock_record, log_access]
  · simp [lock_record, log_access]
  · simp [unlock_record, log_access]
  · unfold enroll_course_secure
    dsimp only
    split_ifs <;> simp [log_access]
  · unfold update_gpa_secure
    dsimp only
    split_ifs <;> simp [log_access]
  · unfold get_student_info
    split_ifs <;> simp [log_access]
  · simp [get_student_info, unlock_record, log_access]

theorem secure_gateway_logging_witness :
    (get_student_info (mkSecureRecord freshStudent) "A").1 = Except.ok "STU0" ∧
    (get_student_info (lock_record (mkSecureRecord freshStudent) "A") "B").1 =
      Except.error SecError.Locked ∧
    (get_student_info (lock_record (mkSecureRecord freshStudent) "A") "B").2 =
      lock_record (mkSecureRecord freshStudent) "A" ∧
    (get_student_info (unlock_record (lock_record (mkSecureRecord freshStudent) "A") "B")
      "C").1 = Except.ok "STU0" ∧
    (lock_record (mkSecureRecord freshStudent) "A").access_log.length = 0 + 1 := by
  have h1 := secure_gateway_logging (mkSecureRecord freshStudent) exOpenCourse "A" "C"
    none "Fall 2025" "X" 0
  have h2 := secure_gateway_logging (lock_record (mkSecureRecord freshStudent) "A")
    exOpenCourse "B" "C" none "Fall 2025" "X" 0
  exact ⟨(h1.1 rfl).1, (h2.2.1 rfl).1, (h2.2.1 rfl).2,
    h2.2.2.2.2.2.2.2.2.2.2.2, h1.2.2.2.2.1⟩

/-- Claim C1 counterexample: at the explicit input of a locked record (one
lock_record call on a fresh wrapper, log length 1), the failing
`get_student_info` call appends no access_log entry at all — the log still
has length 1, not 2 — refuting "every gateway operation, on success or
failure, appends exactly one entry to access_log". -/
theorem locked_get_info_no_log_cex :
    (get_student_info (lock_record (mkSecureRecord freshStudent) "A") "B").1 =
      Except.error SecError.Locked ∧
    (lock_record (mkSecureRecord freshStudent) "A").access_log.length = 1 ∧
    (get_student_info (lock_record (mkSecureRecord freshStudent) "A")
      "B").2.access_log.length = 1 := by
  refine ⟨rfl, rfl, rfl⟩

theorem gpa_sums_all_none (sem : Option String) :
    ∀ (l : List (String × Entry)) (acc : ℚ × Nat),
      (∀ ci ∈ l, ci.2.grade = none) → l.foldl (gpaStep sem) acc = acc
  | [], _, _ => rfl
  | ci :: l, acc, h => by
    have hstep : gpaStep sem acc ci = acc := by
      unfold gpaStep
      split_ifs with hc
      · rfl
      · rw [h ci (List.mem_cons_self ci l)]
    rw [List.foldl_cons, hstep]
    exact gpa_sums_all_none sem l acc (fun x hx => h x (List.mem_cons_of_mem ci hx))

/-- Claim C10: for a student with no graded enrollment entries (such as a
freshly constructed student) `calculate_gpa()` returns 0.0 (leaving the
student unchanged), so `get_academic_status()` computes Suspension, and
consequently every `enroll_course_secure` call on a SecureStudentRecord
wrapping such a student returns failure and logs the failure (exactly one
access_log entry appended): the secure gateway can never enroll such a
student. -/
theorem suspension_blocks_secure_enroll (s : Student) (nowSem : String)
    (h : ∀ ci ∈ s.enrolled_courses, ci.2.grade = none) :
    calculate_gpa s none nowSem = (0, s) ∧
    (get_academic_status s nowSem).1 = AcademicStatus.Suspension ∧
    (∀ r : SecureStudentRecord, r.student = s → ∀ course req sem,
      (enroll_course_secure r course req sem nowSem).1 = false ∧
      (enroll_course_secure r course req sem nowSem).2.1.access_log.length =
        r.access_log.length + 1) := by
  have hsums : gpa_sums s none = (0, 0) :=
    gpa_sums_all_none none s.enrolled_courses (0, 0) h
  have hgpa : calculate_gpa s none nowSem = (0, s) := by
    unfold calculate_gpa
    rw [hsums]
    simp
  have hstat : (get_academic_status s nowSem).1 = AcademicStatus.Suspension := by
    unfold get_academic_status
    dsimp only
    rw [hgpa]
    norm_num
  refine ⟨hgpa, hstat, ?_⟩
  intro r hr course req sem
  unfold enroll_course_secure
  dsimp only
  split_ifs with hcap hsusp
  · simp [log_access]
  · simp [log_access]
  · exfalso
    rw [hr] at hsusp
    exact hsusp hstat

theorem suspension_blocks_secure_enroll_witness :
    (enroll_course_secure (mkSecureRecord freshStudent) exOpenCourse "A" none
      "Fall 2025").1 = false ∧
    (enroll_course_secure (mkSecureRecord freshStudent) exOpenCourse "A" none
      "Fall 2025").2.1.access_log.length = 0 + 1 := by
  have h := (suspension_blocks_secure_enroll freshStudent "Fall 2025" (by decide)).2.2
    (mkSecureRecord freshStudent) rfl exOpenCourse "A" none
  exact ⟨h.1, h.2⟩

theorem find_setTaught_self : ∀ (fl : List (String × List String)) (fid : String)
    (v : List String), (setTaught fl fid v).find? (fun p => p.1 == fid) = some (fid, v)
  | [], fid, v => by simp [setTaught, List.find?]
  | p :: rest, fid, v => by
    by_cases hp : p.1 = fid
    · simp [setTaught, hp, List.find?]
    · simp only [setTaught, if_neg hp]
      rw [List.find?_cons_of_neg _ (by simp [hp])]
      exact find_setTaught_self rest fid v

theorem find_setInstr_self : ∀ (il : List (String × Option String)) (code : String)
    (v : Option String), (setInstr il code v).find? (fun p => p.1 == code) = some (code, v)
  | [], code, v => by simp [setInstr, List.find?]
  | p :: rest, code, v => by
    by_cases hp : p.1 = code
    · simp [setInstr, hp, List.find?]
    · simp only [setInstr, if_neg hp]
      rw [List.find?_cons_of_neg _ (by simp [hp])]
      exact find_setInstr_self rest code v

theorem find_setInstr_ne : ∀ (il : List (String × Option String)) (code c : String)
    (v : Option String), c ≠ code →
    (setInstr il code v).find? (fun p => p.1 == c) = il.find? (fun p => p.1 == c)
  | [], code, c, v, h => by
    have hb : (code == c) = false := beq_eq_false_iff_ne.mpr (Ne.symm h)
    simp [setInstr, List.find?, hb]
  | p :: rest, code, c, v, h => by
    by_cases hp : p.1 = code
    · subst hp
      have hb : (p.1 == c) = false := beq_eq_false_iff_ne.mpr (Ne.symm h)
      simp [setInstr, List.find?, hb]
    · by_cases hc : p.1 = c
      · have hb : (p.1 == c) = true := beq_iff_eq.mpr hc
        simp [setInstr, hp, List.find?, hb]
      · have hb : (p.1 == c) = false := beq_eq_false_iff_ne.mpr hc
        simp [setInstr, hp, List.find?, hb, find_setInstr_ne rest code c v h]

theorem taughtOf_mk_set (fl : List (String × List String))
    (il : List (String × Option String)) (fid : String) (v : List String) :
    taughtOf ⟨setTaught fl fid v, il⟩ fid = v := by
  unfold taughtOf
  rw [find_setTaught_self]

theorem instrOf_mk_set (fl : List (String × List String))
    (il : List (String × Option String)) (code : String) (v : Option String) :
    instrOf ⟨fl, setInstr il code v⟩ code = v := by
  unfold instrOf
  rw [find_setInstr_self]

theorem instrOf_mk_set_ne (fl : List (String × List String))
    (il : List (String × Option String)) (code c : String) (v : Option String)
    (h : c ≠ code) : instrOf ⟨fl, setInstr il code v⟩ c = instrOf ⟨fl, il⟩ c := by
  unfold instrOf
  rw [find_setInstr_ne il code c v h]

/-- Claim C9 (amended): a successful `assign_course` appends the course to
`courses_taught` and sets the course's `instructor` to that faculty entity
(failing when the code is already taught), a successful `remove_course`
removes it and clears the `instructor` to null (failing otherwise), and for
any one faculty entity the two sides never diverge under its own
assign/remove calls: the invariant "a course is in this faculty's
courses_taught iff its instructor is this faculty" is preserved. (When a
second faculty entity assigns the same shared course the sides do diverge —
see the counterexample.) -/
theorem teach_assign_remove_spec (w : TeachWorld) (fid code : String) :
    (code ∉ taughtOf w fid →
      (assign_course w fid code).1 = true ∧
      taughtOf (assign_course w fid code).2 fid = taughtOf w fid ++ [code] ∧
      instrOf (assign_course w fid code).2 code = some fid) ∧
    (code ∈ taughtOf w fid → assign_course w fid code = (false, w)) ∧
    (code ∈ taughtOf w fid →
      (remove_course w fid code).1 = true ∧
      taughtOf (remove_course w fid code).2 fid = (taughtOf w fid).erase code ∧
      instrOf (remove_course w fid code).2 code = none) ∧
    (code ∉ taughtOf w fid → remove_course w fid code = (false, w)) ∧
    (InSync w fid → InSync (assign_course w fid code).2 fid) ∧
    (InSync w fid → InSync (remove_course w fid code).2 fid) := by
  refine ⟨?_, ?_, ?_, ?_, ?_, ?_⟩
  · intro h
    unfold assign_course
    rw [if_neg h]
    exact ⟨rfl, taughtOf_mk_set _ _ _ _, instrOf_mk_set _ _ _ _⟩
  · intro h
    unfold assign_course
    rw [if_pos h]
  · intro h
    unfold remove_course
    rw [if_pos h]
    exact ⟨rfl, taughtOf_mk_set _ _ _ _, instrOf_mk_set _ _ _ _⟩
  · intro h
    unfold remove_course
    rw [if_neg h]
  · rintro ⟨hnd, hsync⟩
    by_cases hin : code ∈ taughtOf w fid
    · unfold assign_course
      rw [if_pos hin]
      exact ⟨hnd, hsync⟩
    · unfold assign_course
      rw [if_neg hin]
      dsimp only
      constructor
      · rw [taughtOf_mk_set]
        simp [List.nodup_append, hnd, hin]
      · intro c
        rw [taughtOf_mk_set]
        by_cases hc : c = code
        · subst hc
          rw [instrOf_mk_set]
          simp
        · rw [instrOf_mk_set_ne _ _ _ _ _ hc]
          simp only [List.mem_append, List.mem_singleton, hc, or_false]
          exact hsync c
  · rintro ⟨hnd, hsync⟩
    by_cases hin : code ∈ taughtOf w fid
    · unfold remove_course
      rw [if_pos hin]
      dsimp only
      constructor
      · rw [taughtOf_mk_set]
        exact hnd.erase code
      · intro c
        rw [taughtOf_mk_set]
        by_cases hc : c = code
        · subst hc
          rw [instrOf_mk_set]
          simp [hnd.not_mem_erase]
        · rw [instrOf_mk_set_ne _ _ _ _ _ hc]
          rw [List.mem_erase_of_ne hc]
          exact hsync c
    · unfold remove_course
      rw [if_neg hin]
      exact ⟨hnd, hsync⟩

theorem teach_assign_remove_spec_witness :
    (assign_course exWorld1 "F1" "C1").1 = true ∧
    taughtOf (assign_course exWorld1 "F1" "C1").2 "F1" = ["C1"] ∧
    instrOf (assign_course exWorld1 "F1" "C1").2 "C1" = some "F1" ∧
    remove_course exWorld1 "F1" "C2" = (false, exWorld1) ∧
    InSync (assign_course exWorld1 "F1" "C1").2 "F1" := by
  have h := teach_assign_remove_spec exWorld1 "F1" "C1"
  have h2 := teach_assign_remove_spec exWorld1 "F1" "C2"
  have hnotin : "C1" ∉ taughtOf exWorld1 "F1" := by decide
  have hsync : InSync exWorld1 "F1" := by
    constructor
    · simp [taughtOf, exWorld1]
    · intro c
      have hnone : instrOf exWorld1 c = none := by
        unfold instrOf exWorld1
        rcases hb : (("C1" : String) == c) with _ | _
        · simp [List.find?, hb]
        · simp [List.find?, hb]
      rw [hnone]
      simp [taughtOf, exWorld1]
  have h1 := h.1 hnotin
  exact ⟨h1.1, by simpa using h1.2.1, h1.2.2, h2.2.2.2.1 (by decide),
    h.2.2.2.2.1 hsync⟩

/-- Claim C9 counterexample: starting from two faculty entities F1, F2 and
one course C1, assign_course succeeds for F1 and then also for F2 (F2's own
courses_taught does not contain C1); afterwards C1 is still in F1's
courses_taught but C1's instructor is F2, so "a course is in some faculty's
courses_taught iff that course's instructor is that faculty entity" is
violated after a successful call. -/
theorem teach_sync_two_faculties_cex :
    (assign_course exWorld2 "F1" "C1").1 = true ∧
    (assign_course (assign_course exWorld2 "F1" "C1").2 "F2" "C1").1 = true ∧
    "C1" ∈ taughtOf (assign_course (assign_course exWorld2 "F1" "C1").2 "F2" "C1").2 "F1" ∧
    instrOf (assign_course (assign_course exWorld2 "F1" "C1").2 "F2" "C1").2 "C1" ≠
      some "F1" := by
  exact ⟨by decide, by decide, by decide, by decide⟩

end UnivSys
